import Mathlib

/-!
Verification of the Modbus stack (client, server, MBAP framer, codec).

Shallow embedding conventions:
* Go bytes are modelled as `Nat`; Go's `byte(x)` / `uint8(x)` cast is `x % 256`
  and `uint16(x)` is `x % 65536`.  Byte streams are `List Nat`.
* Fallible operations return `Except` / `Option`; Go's `error` values that the
  code compares against named `Err...` constants are modelled by the
  `ModbusError` inductive; every other Go error value behaves identically in
  the embedded code paths (it is only ever compared against the named
  constants and fed to `mapErrorToExceptionCode`, which defaults), so a single
  `otherError` constructor represents all of them.
-/

namespace Modbus

/-- Endianness of 16-bit registers (source: `type Endianness uint` with
constants `BIG_ENDIAN = 1`, `LITTLE_ENDIAN = 2`). -/
inductive Endianness where
  | BIG_ENDIAN
  | LITTLE_ENDIAN
deriving DecidableEq, Repr

/-- Word order of multi-register values (source: `type WordOrder uint` with
constants `HIGH_WORD_FIRST = 1`, `LOW_WORD_FIRST = 2`). -/
inductive WordOrder where
  | HIGH_WORD_FIRST
  | LOW_WORD_FIRST
deriving DecidableEq, Repr

/-- `pdu` from modbus.go: `(unitId: uint8, functionCode: uint8, payload: []byte)`. -/
structure pdu where
  unitId : Nat
  functionCode : Nat
  payload : List Nat
deriving DecidableEq, Repr

deriving instance DecidableEq for Except

/-! ## Codec (src/unnamed/part_002, `package modbus` document, lines 8-209) -/

/-- `uint16ToBytes`: `binary.BigEndian.PutUint16` writes `[v>>8, v]`,
`binary.LittleEndian.PutUint16` writes `[v, v>>8]`, each byte truncated. -/
def uint16ToBytes (e : Endianness) (v : Nat) : List Nat :=
  match e with
  | .BIG_ENDIAN => [v / 256 % 256, v % 256]
  | .LITTLE_ENDIAN => [v % 256, v / 256 % 256]

/-- `uint16sToBytes`: concatenation of the per-value encodings. -/
def uint16sToBytes (e : Endianness) (l : List Nat) : List Nat :=
  l.flatMap (uint16ToBytes e)

/-- `bytesToUint16`: `binary.BigEndian.Uint16` / `binary.LittleEndian.Uint16`
read the first two bytes of the slice (in Go the entries are `uint8`; the
`% 256` keeps the model total over `Nat` entries). -/
def bytesToUint16 (e : Endianness) (l : List Nat) : Nat :=
  match e, l with
  | .BIG_ENDIAN, b0 :: b1 :: _ => b0 % 256 * 256 + b1 % 256
  | .LITTLE_ENDIAN, b0 :: b1 :: _ => b1 % 256 * 256 + b0 % 256
  | _, _ => 0

/-- `bytesToUint16s`: decode the input two bytes at a time. -/
def bytesToUint16s (e : Endianness) : List Nat → List Nat
  | b0 :: b1 :: rest => bytesToUint16 e [b0, b1] :: bytesToUint16s e rest
  | _ => []

/-- `binary.BigEndian.Uint32` on four bytes. -/
def beUint32 (a0 a1 a2 a3 : Nat) : Nat :=
  a0 % 256 * 16777216 + a1 % 256 * 65536 + a2 % 256 * 256 + a3 % 256

/-- `binary.LittleEndian.Uint32` on four bytes. -/
def leUint32 (a0 a1 a2 a3 : Nat) : Nat := beUint32 a3 a2 a1 a0

/-- The word swap `out[0],out[1],out[2],out[3] = out[2],out[3],out[0],out[1]`. -/
def wordSwap32 : List Nat → List Nat
  | [a0, a1, a2, a3] => [a2, a3, a0, a1]
  | l => l

/-- `uint32ToBytes`: write in the selected endianness, then swap the two
16-bit words when the word order asks for the non-native order. -/
def uint32ToBytes (e : Endianness) (w : WordOrder) (v : Nat) : List Nat :=
  match e with
  | .BIG_ENDIAN =>
      let out := [v / 16777216 % 256, v / 65536 % 256, v / 256 % 256, v % 256]
      match w with
      | .LOW_WORD_FIRST => wordSwap32 out
      | .HIGH_WORD_FIRST => out
  | .LITTLE_ENDIAN =>
      let out := [v % 256, v / 256 % 256, v / 65536 % 256, v / 16777216 % 256]
      match w with
      | .HIGH_WORD_FIRST => wordSwap32 out
      | .LOW_WORD_FIRST => out

/-- `bytesToUint32s`: decode four bytes at a time; for the non-native word
order the source decodes the rearranged slice `[in2, in3, in0, in1]`. -/
def bytesToUint32s (e : Endianness) (w : WordOrder) : List Nat → List Nat
  | a0 :: a1 :: a2 :: a3 :: rest =>
      (match e, w with
       | .BIG_ENDIAN, .HIGH_WORD_FIRST => beUint32 a0 a1 a2 a3
       | .BIG_ENDIAN, .LOW_WORD_FIRST => beUint32 a2 a3 a0 a1
       | .LITTLE_ENDIAN, .LOW_WORD_FIRST => leUint32 a0 a1 a2 a3
       | .LITTLE_ENDIAN, .HIGH_WORD_FIRST => leUint32 a2 a3 a0 a1)
        :: bytesToUint32s e w rest
  | _ => []

/-- `binary.BigEndian.Uint64` on eight bytes. -/
def beUint64 (a0 a1 a2 a3 a4 a5 a6 a7 : Nat) : Nat :=
  a0 % 256 * 72057594037927936 + a1 % 256 * 281474976710656 +
  a2 % 256 * 1099511627776 + a3 % 256 * 4294967296 +
  a4 % 256 * 16777216 + a5 % 256 * 65536 + a6 % 256 * 256 + a7 % 256

/-- `binary.LittleEndian.Uint64` on eight bytes. -/
def leUint64 (a0 a1 a2 a3 a4 a5 a6 a7 : Nat) : Nat :=
  beUint64 a7 a6 a5 a4 a3 a2 a1 a0

/-- The word swap
`out[0..7] = out[6], out[7], out[4], out[5], out[2], out[3], out[0], out[1]`. -/
def wordSwap64 : List Nat → List Nat
  | [a0, a1, a2, a3, a4, a5, a6, a7] => [a6, a7, a4, a5, a2, a3, a0, a1]
  | l => l

/-- `uint64ToBytes`: write in the selected endianness, then swap the four
16-bit words when the word order asks for the non-native order. -/
def uint64ToBytes (e : Endianness) (w : WordOrder) (v : Nat) : List Nat :=
  match e with
  | .BIG_ENDIAN =>
      let out := [v / 72057594037927936 % 256, v / 281474976710656 % 256,
                  v / 1099511627776 % 256, v / 4294967296 % 256,
                  v / 16777216 % 256, v / 65536 % 256, v / 256 % 256, v % 256]
      match w with
      | .LOW_WORD_FIRST => wordSwap64 out
      | .HIGH_WORD_FIRST => out
  | .LITTLE_ENDIAN =>
      let out := [v % 256, v / 256 % 256, v / 65536 % 256, v / 16777216 % 256,
                  v / 4294967296 % 256, v / 1099511627776 % 256,
                  v / 281474976710656 % 256, v / 72057594037927936 % 256]
      match w with
      | .HIGH_WORD_FIRST => wordSwap64 out
      | .LOW_WORD_FIRST => out

/-- `bytesToUint64s`: decode eight bytes at a time; for the non-native word
order the source decodes the rearranged slice
`[in6, in7, in4, in5, in2, in3, in0, in1]`. -/
def bytesToUint64s (e : Endianness) (w : WordOrder) : List Nat → List Nat
  | a0 :: a1 :: a2 :: a3 :: a4 :: a5 :: a6 :: a7 :: rest =>
      (match e, w with
       | .BIG_ENDIAN, .HIGH_WORD_FIRST => beUint64 a0 a1 a2 a3 a4 a5 a6 a7
       | .BIG_ENDIAN, .LOW_WORD_FIRST => beUint64 a6 a7 a4 a5 a2 a3 a0 a1
       | .LITTLE_ENDIAN, .LOW_WORD_FIRST => leUint64 a0 a1 a2 a3 a4 a5 a6 a7
       | .LITTLE_ENDIAN, .HIGH_WORD_FIRST => leUint64 a6 a7 a4 a5 a2 a3 a0 a1)
        :: bytesToUint64s e w rest
  | _ => []

/-- Value of the byte holding bits `i` with `i / 8` fixed: `encodeBools` sets
bit `i % 8` of byte `i / 8` for every true input bit.  The encoder is written
chunk-wise: the first output byte packs the first (up to) eight bits. -/
def boolsToByte (l : List Bool) : Nat :=
  match l with
  | [] => 0
  | b :: rest => (if b then 1 else 0) + 2 * boolsToByte rest

/-- `encodeBools`: little-endian bit packing, `ceil(len/8)` output bytes,
trailing bits of the final byte are zero. -/
def encodeBools : List Bool → List Nat
  | [] => []
  | b :: rest => boolsToByte ((b :: rest).take 8) :: encodeBools ((b :: rest).drop 8)
termination_by l => l.length
decreasing_by simp; omega

/-- `decodeBools`: bit `i % 8` of byte `i / 8`, for `i < quantity`.  (The Go
code indexes `in[i/8]`; every caller has validated that the byte slice holds
`ceil(quantity/8)` bytes, so the `getD` default is never exercised there.) -/
def decodeBools (quantity : Nat) (l : List Nat) : List Bool :=
  (List.range quantity).map (fun i => (l.getD (i / 8) 0 >>> (i % 8)) % 2 == 1)

/-! ## C6: codec round-trip -/

/-- C6: for every 16-, 32- and 64-bit value and every endianness/word-order
pair, decoding the bytes produced by encoding recovers the value:
`bytesToUint16 e (uint16ToBytes e v) = v`,
`bytesToUint32s e w (uint32ToBytes e w v) = [v]` and
`bytesToUint64s e w (uint64ToBytes e w v) = [v]`.  The float paths route
through the IEEE-754 bit patterns (`math.Float32bits` / `Float64bits`) and
are therefore instances of the 32- and 64-bit laws. -/
theorem codec_roundtrip (e : Endianness) (w : WordOrder) (v16 v32 v64 : Nat)
    (h16 : v16 < 65536) (h32 : v32 < 4294967296)
    (h64 : v64 < 18446744073709551616) :
    bytesToUint16 e (uint16ToBytes e v16) = v16 ∧
    bytesToUint32s e w (uint32ToBytes e w v32) = [v32] ∧
    bytesToUint64s e w (uint64ToBytes e w v64) = [v64] := by
  refine ⟨?_, ?_, ?_⟩ <;> cases e <;> cases w <;>
    simp [uint16ToBytes, bytesToUint16, uint32ToBytes, bytesToUint32s,
          uint64ToBytes, bytesToUint64s, beUint32, leUint32, beUint64, leUint64,
          wordSwap32, wordSwap64] <;> omega

/-- Witness for C6 at concrete values. -/
theorem codec_roundtrip_witness :
    bytesToUint16 .LITTLE_ENDIAN (uint16ToBytes .LITTLE_ENDIAN 4660) = 4660 ∧
    bytesToUint32s .LITTLE_ENDIAN .HIGH_WORD_FIRST
      (uint32ToBytes .LITTLE_ENDIAN .HIGH_WORD_FIRST 305419896) = [305419896] ∧
    bytesToUint64s .LITTLE_ENDIAN .HIGH_WORD_FIRST
      (uint64ToBytes .LITTLE_ENDIAN .HIGH_WORD_FIRST 1311768467463790320) =
      [1311768467463790320] :=
  codec_roundtrip .LITTLE_ENDIAN .HIGH_WORD_FIRST 4660 305419896
    1311768467463790320 (by decide) (by decide) (by decide)

/-! ## Error taxonomy (src/modbus.go lines 54-111) -/

/-- The named `Err...` constants of modbus.go, plus:
* `ioError` for errors surfaced by socket reads/writes (`io.ReadFull` short
  reads, timeouts, ...), which the embedded code only ever propagates, and
* `otherError` for any other Go error value (e.g. `fmt.Errorf` results or
  arbitrary handler-returned errors), which the embedded code only compares
  against named constants (always unequal) or maps through
  `mapErrorToExceptionCode` (default arm). -/
inductive ModbusError where
  | configurationError
  | requestTimedOut
  | illegalFunction
  | illegalDataAddress
  | illegalDataValue
  | serverDeviceFailure
  | acknowledge
  | serverDeviceBusy
  | memoryParityError
  | gwPathUnavailable
  | gwTargetFailedToRespond
  | badCRC
  | shortFrame
  | protocolError
  | badUnitId
  | badTransactionId
  | unknownProtocolId
  | unexpectedParameters
  | ioError
  | otherError
deriving DecidableEq, Repr

/-- `mapExceptionCodeToError`: exception code to typed error; unknown codes
become a fresh `fmt.Errorf` error (`otherError`). -/
def mapExceptionCodeToError (exceptionCode : Nat) : ModbusError :=
  match exceptionCode with
  | 0x01 => .illegalFunction
  | 0x02 => .illegalDataAddress
  | 0x03 => .illegalDataValue
  | 0x04 => .serverDeviceFailure
  | 0x05 => .acknowledge
  | 0x08 => .memoryParityError
  | 0x06 => .serverDeviceBusy
  | 0x0a => .gwPathUnavailable
  | 0x0b => .gwTargetFailedToRespond
  | _ => .otherError

/-- `mapErrorToExceptionCode`: typed error to exception code, defaulting to
`exServerDeviceFailure` (0x04). -/
def mapErrorToExceptionCode (err : ModbusError) : Nat :=
  match err with
  | .illegalFunction => 0x01
  | .illegalDataAddress => 0x02
  | .illegalDataValue => 0x03
  | .serverDeviceFailure => 0x04
  | .acknowledge => 0x05
  | .memoryParityError => 0x08
  | .serverDeviceBusy => 0x06
  | .gwPathUnavailable => 0x0a
  | .gwTargetFailedToRespond => 0x0b
  | _ => 0x04

/-! ## MBAP framer (src/tcp_transport.go) -/

def maxTCPFrameLength : Nat := 260
def mbapHeaderLength : Nat := 7

/-- `readMBAPFrame` (src/tcp_transport.go lines 127-187) on a byte stream.
Returns the parse result together with the part of the stream the call did
not consume (`io.ReadFull` consumes what it reads even when a later check
fails; a short read consumes the whole stream and yields an i/o error). -/
def readMBAPFrame (stream : List Nat) : Except ModbusError (pdu × Nat) × List Nat :=
  match stream with
  | b0 :: b1 :: b2 :: b3 :: b4 :: b5 :: b6 :: rest =>
      let txnId := bytesToUint16 .BIG_ENDIAN [b0, b1]
      let protocolId := bytesToUint16 .BIG_ENDIAN [b2, b3]
      let unitId := b6
      -- bytesNeeded is a Go `int`; the decrement can make it negative
      let bytesNeeded : Int := (bytesToUint16 .BIG_ENDIAN [b4, b5] : Int) - 1
      if bytesNeeded + mbapHeaderLength > maxTCPFrameLength then
        (.error .protocolError, rest)
      else if bytesNeeded ≤ 0 then
        (.error .protocolError, rest)
      else
        let n := bytesNeeded.toNat
        if rest.length < n then (.error .ioError, [])
        else if protocolId ≠ 0 then (.error .unknownProtocolId, rest.drop n)
        else
          match rest.take n with
          | fc :: payload =>
              (.ok ({ unitId := unitId, functionCode := fc, payload := payload }, txnId),
               rest.drop n)
          | [] => (.error .ioError, [])  -- unreachable: n ≥ 1
  | _ => (.error .ioError, [])

/-- `assembleMBAPFrame` (src/tcp_transport.go lines 190-205):
`txn_id(BE) ∥ 0x0000 ∥ uint16(2+len(payload))(BE) ∥ unit_id ∥ fc ∥ payload`. -/
def assembleMBAPFrame (txnId : Nat) (p : pdu) : List Nat :=
  uint16ToBytes .BIG_ENDIAN txnId ++ [0x00, 0x00] ++
  uint16ToBytes .BIG_ENDIAN ((2 + p.payload.length) % 65536) ++
  [p.unitId] ++ [p.functionCode] ++ p.payload

/-- An incoming MBAP frame as it appears on the wire, with an arbitrary
protocol-id field (the server side of the connection controls these bytes). -/
structure mbapWireFrame where
  txnId : Nat
  protocolId : Nat
  p : pdu
deriving Repr

/-- The bytes of an incoming MBAP frame (same layout as `assembleMBAPFrame`,
with the protocol-id field free). -/
def mbapWireFrame.bytes (f : mbapWireFrame) : List Nat :=
  uint16ToBytes .BIG_ENDIAN f.txnId ++ uint16ToBytes .BIG_ENDIAN f.protocolId ++
  uint16ToBytes .BIG_ENDIAN ((2 + f.p.payload.length) % 65536) ++
  [f.p.unitId] ++ [f.p.functionCode] ++ f.p.payload

/-- A frame whose header fields fit their wire width and whose payload fits
one MBAP frame. -/
def mbapWireFrame.wf (f : mbapWireFrame) : Prop :=
  f.txnId < 65536 ∧ f.protocolId < 65536 ∧ f.p.payload.length ≤ 252

instance (f : mbapWireFrame) : Decidable f.wf := by
  unfold mbapWireFrame.wf; infer_instance

/-- Parsing an assembled wire frame consumes exactly the frame: returns the
PDU and txn-id when the protocol id is 0, `ErrUnknownProtocolId` otherwise. -/
theorem readMBAPFrame_wireFrame (f : mbapWireFrame) (tail : List Nat)
    (hwf : f.wf) :
    readMBAPFrame (f.bytes ++ tail) =
      (if f.protocolId = 0 then .ok (f.p, f.txnId) else .error .unknownProtocolId,
       tail) := by
  obtain ⟨t, pr, u, fc, payload⟩ := f
  simp only [mbapWireFrame.wf] at hwf
  obtain ⟨ht, hp, hl⟩ := hwf
  have h2 : (2 + payload.length) % 65536 = 2 + payload.length := by omega
  simp only [mbapWireFrame.bytes, uint16ToBytes, h2, List.cons_append,
    List.nil_append, List.append_assoc, List.singleton_append]
  simp only [readMBAPFrame, bytesToUint16]
  have htx : t / 256 % 256 % 256 * 256 + t % 256 % 256 = t := by omega
  have hpr2 : pr / 256 % 256 % 256 * 256 + pr % 256 % 256 = pr := by omega
  have hlen : (2 + payload.length) / 256 % 256 % 256 * 256
      + (2 + payload.length) % 256 % 256 = 2 + payload.length := by omega
  rw [htx, hpr2, hlen]
  rw [if_neg (by simp only [mbapHeaderLength, maxTCPFrameLength]; push_cast; omega)]
  rw [if_neg (by push_cast; omega)]
  have hn : (((2 + payload.length : Nat) : Int) - 1).toNat = payload.length + 1 := by
    omega
  rw [hn]
  rw [if_neg (by simp only [List.length_cons, List.length_append]; omega)]
  simp only [List.take_succ_cons, List.drop_succ_cons, List.take_left,
    List.drop_left]
  by_cases hz : pr = 0 <;> simp [hz]

/-! ## C1: MBAP frame rejection -/

/-- C1 counterexample.  The claim as stated fails twice on the code:
* a frame whose protocol-id field is 0x0001 but whose length field is 0 is
  rejected with `ErrProtocolError`, not `ErrUnknownProtocolId` (the length
  checks run before the protocol-id check);
* a frame whose length field is 254 (> 253) with protocol id 0 is not
  rejected at all: it parses into a PDU (the code only rejects
  `length - 1 + 7 > 260`, i.e. length ≥ 255). -/
theorem readMBAPFrame_reject_counterexample :
    (readMBAPFrame [0x00, 0x00, 0x00, 0x01, 0x00, 0x00, 0x05]).1
      = .error .protocolError ∧
    (readMBAPFrame
        (mbapWireFrame.bytes ⟨1, 0, ⟨9, 3, List.replicate 252 0⟩⟩)).1
      = .ok (⟨9, 3, List.replicate 252 0⟩, 1) := by
  constructor
  · rfl
  · have h := readMBAPFrame_wireFrame ⟨1, 0, ⟨9, 3, List.replicate 252 0⟩⟩ []
      ⟨by decide, by decide, (List.length_replicate 252 0).le⟩
    rw [List.append_nil] at h
    rw [h]
    rw [if_pos rfl]

/-- C1 (amended): `readMBAPFrame` rejects a frame whose length field is
less than 2 with `ErrProtocolError`, rejects a frame whose length field is
greater than 254 with `ErrProtocolError`, and rejects a frame whose
protocol-id field is non-zero with `ErrUnknownProtocolId` provided its
length field is within 2..254 (the length checks run first) and the frame
body is present on the stream. -/
theorem readMBAPFrame_reject_spec
    (a0 a1 a2 a3 a4 a5 a6 : Nat) (arest : List Nat)
    (b0 b1 b2 b3 b4 b5 b6 : Nat) (brest : List Nat)
    (c0 c1 c2 c3 c4 c5 c6 : Nat) (crest : List Nat)
    (hA : bytesToUint16 .BIG_ENDIAN [a4, a5] < 2)
    (hB : 254 < bytesToUint16 .BIG_ENDIAN [b4, b5])
    (hC1 : 2 ≤ bytesToUint16 .BIG_ENDIAN [c4, c5])
    (hC2 : bytesToUint16 .BIG_ENDIAN [c4, c5] ≤ 254)
    (hC3 : bytesToUint16 .BIG_ENDIAN [c2, c3] ≠ 0)
    (hC4 : bytesToUint16 .BIG_ENDIAN [c4, c5] - 1 ≤ crest.length) :
    (readMBAPFrame (a0 :: a1 :: a2 :: a3 :: a4 :: a5 :: a6 :: arest)).1
      = .error .protocolError ∧
    (readMBAPFrame (b0 :: b1 :: b2 :: b3 :: b4 :: b5 :: b6 :: brest)).1
      = .error .protocolError ∧
    (readMBAPFrame (c0 :: c1 :: c2 :: c3 :: c4 :: c5 :: c6 :: crest)).1
      = .error .unknownProtocolId := by
  refine ⟨?_, ?_, ?_⟩
  · simp only [readMBAPFrame]
    rw [if_neg (by simp only [mbapHeaderLength, maxTCPFrameLength]; omega),
        if_pos (by omega)]
  · simp only [readMBAPFrame]
    rw [if_pos (by simp only [mbapHeaderLength, maxTCPFrameLength]; omega)]
  · simp only [readMBAPFrame]
    rw [if_neg (by simp only [mbapHeaderLength, maxTCPFrameLength]; omega),
        if_neg (by omega),
        if_neg (by omega),
        if_pos hC3]

/-- Witness for C1 (amended) at concrete frames: length field 1, length
field 256, and protocol id 1 with length field 2. -/
theorem readMBAPFrame_reject_spec_witness :
    (readMBAPFrame [0, 0, 0, 0, 0, 1, 1]).1 = .error .protocolError ∧
    (readMBAPFrame [0, 0, 0, 0, 1, 0, 1]).1 = .error .protocolError ∧
    (readMBAPFrame [0, 0, 0, 1, 0, 2, 1, 3]).1 = .error .unknownProtocolId :=
  readMBAPFrame_reject_spec 0 0 0 0 0 1 1 [] 0 0 0 0 1 0 1 [] 0 0 0 1 0 2 1 [3]
    (by decide) (by decide) (by decide) (by decide) (by decide) (by decide)

/-! ## C2: MBAP assemble/parse round-trip -/

/-- C2 counterexample: a PDU with a 253-byte payload does not survive the
round-trip.  `assembleMBAPFrame` emits length field 255, and
`readMBAPFrame` then rejects the frame with `ErrProtocolError`
(`255 - 1 + 7 > 260`), so no PDU is recovered. -/
theorem mbap_roundtrip_counterexample :
    (readMBAPFrame (assembleMBAPFrame 7 ⟨1, 3, List.replicate 253 0⟩)).1
      = .error .protocolError := by
  have hb : assembleMBAPFrame 7 ⟨1, 3, List.replicate 253 0⟩ =
      0 :: 7 :: 0 :: 0 :: 0 :: 255 :: 1 :: 3 :: List.replicate 253 0 := by
    simp only [assembleMBAPFrame, uint16ToBytes, List.length_replicate,
      List.cons_append, List.nil_append, List.append_assoc, List.singleton_append]
  rw [hb]
  simp only [readMBAPFrame]
  rw [if_pos (by norm_num [bytesToUint16, mbapHeaderLength, maxTCPFrameLength])]

/-- C2 (amended): for every transaction id `t < 2^16` and every PDU whose
payload holds at most 252 bytes, parsing the bytes produced by
`assembleMBAPFrame` recovers exactly the same transaction id, unit id,
function code and payload (and consumes exactly the frame). -/
theorem mbap_roundtrip (txnId : Nat) (p : pdu) (tail : List Nat)
    (ht : txnId < 65536) (hl : p.payload.length ≤ 252) :
    readMBAPFrame (assembleMBAPFrame txnId p ++ tail) = (.ok (p, txnId), tail) := by
  have hb : assembleMBAPFrame txnId p = mbapWireFrame.bytes ⟨txnId, 0, p⟩ := by
    simp [assembleMBAPFrame, mbapWireFrame.bytes, uint16ToBytes]
  rw [hb, readMBAPFrame_wireFrame ⟨txnId, 0, p⟩ tail ⟨ht, show (0:Nat) < 65536 by norm_num, hl⟩]
  rw [if_pos rfl]

/-- Witness for C2 (amended): the spec's scenario-1 request frame
`00 01 00 00 00 06 01 03 10 00 00 02` round-trips. -/
theorem mbap_roundtrip_witness :
    readMBAPFrame (assembleMBAPFrame 1 ⟨1, 3, [0x10, 0x00, 0x00, 0x02]⟩ ++ []) =
      (.ok (⟨1, 3, [0x10, 0x00, 0x00, 0x02]⟩, 1), []) :=
  mbap_roundtrip 1 ⟨1, 3, [0x10, 0x00, 0x00, 0x02]⟩ [] (by decide) (by decide)

/-! ## C5: transaction matching in the MBAP client response loop -/

/-- A frame read that yields a PDU or `ErrUnknownProtocolId` consumed the
7-byte header plus at least one body byte, so the unconsumed remainder of
the stream is strictly shorter. -/
theorem readMBAPFrame_consumed_lt (stream : List Nat)
    (r : Except ModbusError (pdu × Nat)) (rest : List Nat)
    (h : readMBAPFrame stream = (r, rest))
    (hr : r = .error .unknownProtocolId ∨ ∃ p t, r = Except.ok (p, t)) :
    rest.length < stream.length := by
  rcases stream with _ | ⟨b0, _ | ⟨b1, _ | ⟨b2, _ | ⟨b3, _ | ⟨b4, _ | ⟨b5, _ | ⟨b6, rest0⟩⟩⟩⟩⟩⟩⟩ <;>
    simp only [readMBAPFrame] at h <;>
    [skip; skip; skip; skip; skip; skip; skip; repeat' split at h] <;>
    (rw [Prod.mk.injEq] at h; obtain ⟨rfl, rfl⟩ := h) <;>
    first
    | (simp only [List.length_drop, List.length_cons]; omega)
    | (rcases hr with h' | ⟨p, t, h'⟩ <;> simp at h')

/-- `readResponse` (src/tcp_transport.go lines 95-124): read frames until one
carries the expected transaction id; frames rejected with
`ErrUnknownProtocolId` and frames with a different transaction id are
skipped, any other error aborts the loop. -/
def readResponse (lastTxnId : Nat) (stream : List Nat) : Except ModbusError pdu :=
  match hres : readMBAPFrame stream with
  | (.error .unknownProtocolId, rest) => readResponse lastTxnId rest
  | (.error e, _) => .error e
  | (.ok (p, txnId), rest) =>
      if lastTxnId ≠ txnId then readResponse lastTxnId rest else .ok p
termination_by stream.length
decreasing_by
  · exact readMBAPFrame_consumed_lt stream _ _ hres (Or.inl rfl)
  · exact readMBAPFrame_consumed_lt stream _ _ hres (Or.inr ⟨_, _, rfl⟩)

/-- `ExecuteRequest` (src/tcp_transport.go lines 42-60): increment the
16-bit transaction counter, send the assembled frame, then run the response
loop with the new counter value.  Returns (new counter, bytes written,
result of the response loop over the incoming byte stream). -/
def tcpExecuteRequest (lastTxnId : Nat) (req : pdu) (stream : List Nat) :
    Nat × List Nat × Except ModbusError pdu :=
  ((lastTxnId + 1) % 65536,
   assembleMBAPFrame ((lastTxnId + 1) % 65536) req,
   readResponse ((lastTxnId + 1) % 65536) stream)

/-- One step of the response loop over a well-formed wire frame. -/
theorem readResponse_frame_step (T : Nat) (f : mbapWireFrame) (tail : List Nat)
    (hwf : f.wf) :
    readResponse T (f.bytes ++ tail) =
      if f.protocolId = 0 then
        (if T ≠ f.txnId then readResponse T tail else .ok f.p)
      else readResponse T tail := by
  rw [readResponse.eq_def, readMBAPFrame_wireFrame f tail hwf]
  by_cases hz : f.protocolId = 0
  · rw [if_pos hz, if_pos hz]
  · rw [if_neg hz, if_neg hz]

/-- Concatenated wire encoding of a list of incoming frames. -/
def framesBytes (l : List mbapWireFrame) : List Nat :=
  l.flatMap mbapWireFrame.bytes

/-- The response loop is transparent with respect to a prefix of frames it
skips (non-zero protocol id or wrong transaction id). -/
theorem readResponse_skip (T : Nat) (pre : List mbapWireFrame) (tail : List Nat)
    (hpre : ∀ f ∈ pre, f.wf ∧ (f.protocolId ≠ 0 ∨ f.txnId ≠ T)) :
    readResponse T (framesBytes pre ++ tail) = readResponse T tail := by
  induction pre with
  | nil => simp [framesBytes]
  | cons f rest ih =>
      have hf := hpre f (by simp)
      have hrest : ∀ g ∈ rest, g.wf ∧ (g.protocolId ≠ 0 ∨ g.txnId ≠ T) :=
        fun g hg => hpre g (by simp [hg])
      simp only [framesBytes, List.flatMap_cons, List.append_assoc]
      rw [readResponse_frame_step T f _ hf.1]
      rcases hf.2 with hp | htx
      · rw [if_neg hp]
        exact ih hrest
      · by_cases hp0 : f.protocolId = 0
        · rw [if_pos hp0, if_pos (Ne.symm htx)]
          exact ih hrest
        · rw [if_neg hp0]
          exact ih hrest

/-- C5: after `ExecuteRequest` sends a request under the just-incremented
transaction counter T, the response loop returns the PDU of the first
received frame whose transaction id is T; frames with another transaction
id and frames with a non-zero protocol id (`ErrUnknownProtocolId`) are
silently skipped, and any other framing/i-o error is propagated. -/
theorem tcpExecuteRequest_matching (lastTxnId : Nat) (req : pdu)
    (pre : List mbapWireFrame) (target : mbapWireFrame) (post : List Nat)
    (e : ModbusError) (estream : List Nat)
    (hpre : ∀ f ∈ pre, f.wf ∧
      (f.protocolId ≠ 0 ∨ f.txnId ≠ (lastTxnId + 1) % 65536))
    (hwf : target.wf) (hproto : target.protocolId = 0)
    (htxn : target.txnId = (lastTxnId + 1) % 65536)
    (herr : (readMBAPFrame estream).1 = .error e)
    (hne : e ≠ .unknownProtocolId) :
    tcpExecuteRequest lastTxnId req (framesBytes (pre ++ [target]) ++ post) =
      ((lastTxnId + 1) % 65536,
       assembleMBAPFrame ((lastTxnId + 1) % 65536) req,
       Except.ok target.p) ∧
    tcpExecuteRequest lastTxnId req (framesBytes pre ++ estream) =
      ((lastTxnId + 1) % 65536,
       assembleMBAPFrame ((lastTxnId + 1) % 65536) req,
       Except.error e) := by
  constructor
  · simp only [tcpExecuteRequest, Prod.mk.injEq, true_and]
    rw [show framesBytes (pre ++ [target]) = framesBytes pre ++ framesBytes [target]
          by simp [framesBytes]]
    rw [List.append_assoc, readResponse_skip _ pre _ hpre]
    have hsingle : framesBytes [target] = target.bytes := by simp [framesBytes]
    rw [hsingle, readResponse_frame_step _ target post hwf, if_pos hproto,
        if_neg (by rw [htxn]; simp)]
  · simp only [tcpExecuteRequest, Prod.mk.injEq, true_and]
    rw [readResponse_skip _ pre _ hpre, readResponse.eq_def]
    rcases h2 : readMBAPFrame estream with ⟨r, rest⟩
    rw [h2] at herr
    simp only at herr
    subst herr
    cases e <;> simp_all

/-- Witness for C5, following the spec's scenario 4: counter at 0x9217 is
incremented to T = 0x9218; a stale frame with txn id 0x9219 is skipped and
the frame with txn id 0x9218 is returned; on an empty follow-up stream the
i/o error is propagated. -/
theorem tcpExecuteRequest_matching_witness :
    tcpExecuteRequest 0x9217 ⟨1, 3, [0x10, 0x00, 0x00, 0x02]⟩
        (framesBytes ([⟨0x9219, 0, ⟨1, 3, [4, 0, 0, 0, 0]⟩⟩] ++
          [⟨0x9218, 0, ⟨1, 3, [4, 0x12, 0x34, 0x56, 0x78]⟩⟩]) ++ []) =
      (0x9218, assembleMBAPFrame 0x9218 ⟨1, 3, [0x10, 0x00, 0x00, 0x02]⟩,
       Except.ok ⟨1, 3, [4, 0x12, 0x34, 0x56, 0x78]⟩) ∧
    tcpExecuteRequest 0x9217 ⟨1, 3, [0x10, 0x00, 0x00, 0x02]⟩
        (framesBytes [⟨0x9219, 0, ⟨1, 3, [4, 0, 0, 0, 0]⟩⟩] ++ []) =
      (0x9218, assembleMBAPFrame 0x9218 ⟨1, 3, [0x10, 0x00, 0x00, 0x02]⟩,
       Except.error .ioError) :=
  tcpExecuteRequest_matching 0x9217 ⟨1, 3, [0x10, 0x00, 0x00, 0x02]⟩
    [⟨0x9219, 0, ⟨1, 3, [4, 0, 0, 0, 0]⟩⟩]
    ⟨0x9218, 0, ⟨1, 3, [4, 0x12, 0x34, 0x56, 0x78]⟩⟩ [] .ioError []
    (by decide) (by decide) (by decide) (by decide) (by decide) (by decide)

/-! ## C3: client readRegisters parameter validation -/

/-- Outcome of the client-side phase of a request that precedes any
transport i/o: either an immediate error return, or the request PDU that is
written to the transport. -/
inductive ClientPhase where
  | immediateError (e : ModbusError)
  | sendRequest (req : pdu)
deriving DecidableEq, Repr

/-- `readRegisters` (src/modbus.go lines 1124-1206), request-building phase,
faithful to the source control flow: the `quantity == 0` and
`quantity > 123` validation branches assign `err = ErrUnexpectedParameters`
but do NOT `return`, so unless the address-wraparound check (which does
return) fires, the request is still sent across the transport — and `err`
is then overwritten by `executeRequest`'s result.  `regType` is the Go
`RegType` value (`HOLDING_REGISTER = 0`, `INPUT_REGISTER = 1`; the switch
default returns `ErrUnexpectedParameters`).  `addr` and `quantity` are
uint16 values and the address check runs in uint32 arithmetic
(`uint32(addr) + uint32(quantity) - 1`, wrapping to 2^32 - 1 when both are
zero). -/
def readRegistersPre (unitId addr quantity regType : Nat) : ClientPhase :=
  if regType = 0 ∨ regType = 1 then
    let functionCode := if regType = 0 then 3 else 4
    if (addr + quantity + 4294967295) % 4294967296 > 0xffff then
      .immediateError .unexpectedParameters
    else
      .sendRequest ⟨unitId, functionCode,
        uint16ToBytes .BIG_ENDIAN addr ++ uint16ToBytes .BIG_ENDIAN quantity⟩
  else .immediateError .unexpectedParameters

/-- C3 is a code bug: a read of 126 registers (and likewise a read of 0
registers at a non-zero address) is NOT rejected before i/o.  The
quantity-validation branches of `readRegisters` set
`ErrUnexpectedParameters` without returning (and the code's own log message
even names the bound 123, not the documented 125), so the out-of-range
request is still written to the transport, contradicting both the spec
(`read_registers(0, 126, …) → parameter error`, "parameter errors surface
immediately without I/O") and the sibling validation code
(`writeRegisters`, `readBools`), which does return. -/
theorem readRegisters_badQuantity_still_sends :
    readRegistersPre 1 0 126 0 = .sendRequest ⟨1, 3, [0, 0, 0, 126]⟩ ∧
    readRegistersPre 1 5 0 0 = .sendRequest ⟨1, 3, [0, 5, 0, 0]⟩ := by
  decide

/-! ## C8: WriteCoil response verification -/

/-- `WriteCoil` request construction (src/modbus.go lines 678-691): FC 0x05,
payload = addr (BE) followed by 0xFF00 for true / 0x0000 for false. -/
def writeCoilRequest (unitId addr : Nat) (value : Bool) : pdu :=
  ⟨unitId, 5,
   uint16ToBytes .BIG_ENDIAN addr ++
     (if value then [0xff, 0x00] else [0x00, 0x00])⟩

/-- `WriteCoil` response validation (src/modbus.go lines 699-727), the
`switch` on the response function code.  Returns `none` for success.
The success-arm check is, verbatim:
`len(res.payload) != 4 || bytesToUint16(BIG_ENDIAN, res.payload[0:2]) != addr
 || (value == true && res.payload[2] != 0xff) || res.payload[3] != 0x00`
— there is no check on `res.payload[2]` when `value == false`. -/
def writeCoilValidateResponse (addr : Nat) (value : Bool) (res : pdu) :
    Option ModbusError :=
  if res.functionCode = 5 then
    if res.payload.length ≠ 4 ∨
       bytesToUint16 .BIG_ENDIAN (res.payload.take 2) ≠ addr ∨
       (value = true ∧ res.payload.getD 2 0 ≠ 0xff) ∨
       res.payload.getD 3 0 ≠ 0x00 then
      some .protocolError
    else none
  else if res.functionCode = Nat.lor 5 0x80 then
    if res.payload.length ≠ 1 then some .protocolError
    else some (mapExceptionCodeToError (res.payload.getD 0 0))
  else some .protocolError

/-- C8 is a code bug: for `WriteCoil(0, false)` a response whose value-echo
field is 0xFF00 (payload `[0x00, 0x00, 0xff, 0x00]`) is accepted as
success, although 0xFF00 differs from the encoding 0x0000 of `false` — the
code omits the `value == false && res.payload[2] != 0x00` clause that its
own comment ("bytes 3-4 should either be {0xff, 0x00} or {0x00, 0x00}
depending on the coil value") calls for.  The asymmetric check for
`value == true` does reject a wrong echo. -/
theorem writeCoil_false_bad_echo_accepted :
    writeCoilValidateResponse 0 false ⟨1, 5, [0x00, 0x00, 0xff, 0x00]⟩ = none ∧
    writeCoilValidateResponse 0 true ⟨1, 5, [0x00, 0x00, 0x00, 0x00]⟩ =
      some .protocolError := by
  decide

/-! ## C10: WriteBytes in-place byte swap -/

/-- The byte-swap loop of `writeBytes`:
`for i := 0; i < len(values); i += 2 { values[i], values[i+1] = values[i+1], values[i] }`
(only ever run on even-length slices, since `writeBytes` pads first). -/
def swapBytePairs : List Nat → List Nat
  | a :: b :: rest => b :: a :: swapBytePairs rest
  | l => l

/-- `writeBytes` (src/modbus.go lines 1013-1030): data flow up to the
`writeRegisters` call.  Returns (caller-visible buffer after the call,
bytes handed to `writeRegisters`).  For an even-length argument the
`append` padding is not executed, so `values` keeps aliasing the caller's
backing array and the swap loop writes through it: the caller sees the
swapped bytes.  For an odd-length argument `append` may reallocate, so the
caller-visible buffer is left unmodelled (returned unchanged); the claim
under verification concerns even lengths only. -/
def writeBytes (endianness : Endianness) (observeEndianness : Bool)
    (values : List Nat) : List Nat × List Nat :=
  let padded := if values.length % 2 = 1 then values ++ [0x00] else values
  let sent := if observeEndianness && endianness == .LITTLE_ENDIAN then
                swapBytePairs padded
              else padded
  (if values.length % 2 = 1 then values else sent, sent)

theorem swapBytePairs_length : ∀ l : List Nat, (swapBytePairs l).length = l.length
  | [] => rfl
  | [_] => rfl
  | _ :: _ :: rest => by
      simp only [swapBytePairs, List.length_cons]
      rw [swapBytePairs_length rest]

theorem swapBytePairs_getD : ∀ (l : List Nat) (i : Nat), 2 * i + 1 < l.length →
    (swapBytePairs l).getD (2 * i) 0 = l.getD (2 * i + 1) 0 ∧
    (swapBytePairs l).getD (2 * i + 1) 0 = l.getD (2 * i) 0
  | [], i, h => by simp at h
  | [_], i, h => by simp only [List.length_cons, List.length_nil] at h; omega
  | a :: b :: rest, 0, _ => by simp [swapBytePairs]
  | a :: b :: rest, (i + 1), h => by
      have hlt : 2 * i + 1 < rest.length := by
        simp only [List.length_cons] at h; omega
      obtain ⟨h1, h2⟩ := swapBytePairs_getD rest i hlt
      have e1 : 2 * (i + 1) = 2 * i + 1 + 1 := by omega
      have e2 : 2 * (i + 1) + 1 = 2 * i + 1 + 1 + 1 := by omega
      constructor
      · rw [e2, e1]
        simp only [swapBytePairs, List.getD_cons_succ]
        exact h1
      · rw [e2, e1]
        simp only [swapBytePairs, List.getD_cons_succ]
        exact h2

/-- C10: for every even-length byte slice passed to `WriteBytes` with the
client endianness set to LITTLE_ENDIAN (i.e. `writeBytes` with
`observeEndianness = true`), the caller's slice is mutated in place: when
the call returns, each adjacent pair `values[2i], values[2i+1]` of the
caller's buffer has been swapped (and its length is unchanged). -/
theorem writeBytes_littleEndian_swaps_in_place (values : List Nat)
    (heven : values.length % 2 = 0) :
    (writeBytes .LITTLE_ENDIAN true values).1.length = values.length ∧
    ∀ i, 2 * i + 1 < values.length →
      (writeBytes .LITTLE_ENDIAN true values).1.getD (2 * i) 0 =
        values.getD (2 * i + 1) 0 ∧
      (writeBytes .LITTLE_ENDIAN true values).1.getD (2 * i + 1) 0 =
        values.getD (2 * i) 0 := by
  have hodd : ¬(values.length % 2 = 1) := by omega
  have hw : (writeBytes .LITTLE_ENDIAN true values).1 = swapBytePairs values := by
    simp [writeBytes, hodd]
  rw [hw]
  exact ⟨swapBytePairs_length values, fun i hi => swapBytePairs_getD values i hi⟩

/-- Witness for C10 at `values = [0x12, 0x34, 0x56, 0x78]`, pair index 1. -/
theorem writeBytes_littleEndian_swaps_in_place_witness :
    (writeBytes .LITTLE_ENDIAN true [0x12, 0x34, 0x56, 0x78]).1.getD 2 0 =
      [0x12, 0x34, 0x56, 0x78].getD 3 0 ∧
    (writeBytes .LITTLE_ENDIAN true [0x12, 0x34, 0x56, 0x78]).1.getD 3 0 =
      [0x12, 0x34, 0x56, 0x78].getD 2 0 :=
  (writeBytes_littleEndian_swaps_in_place [0x12, 0x34, 0x56, 0x78]
    (by decide)).2 1 (by decide)

/-! ## Server engine (src/unnamed/part_006) -/

/-- Request object passed to the coil handler. -/
structure CoilsRequest where
  clientAddr : String
  clientRole : String
  unitId : Nat
  addr : Nat
  quantity : Nat
  isWrite : Bool
  args : List Bool

/-- Request object passed to the discrete input handler. -/
structure DiscreteInputsRequest where
  clientAddr : String
  clientRole : String
  unitId : Nat
  addr : Nat
  quantity : Nat

/-- Request object passed to the holding register handler. -/
structure HoldingRegistersRequest where
  clientAddr : String
  clientRole : String
  unitId : Nat
  addr : Nat
  quantity : Nat
  isWrite : Bool
  args : List Nat

/-- Request object passed to the input register handler. -/
structure InputRegistersRequest where
  clientAddr : String
  clientRole : String
  unitId : Nat
  addr : Nat
  quantity : Nat

/-- The user-supplied `RequestHandler` interface.  A Go handler returns a
value slice and an arbitrary `error`; the dispatcher only compares that
error against named constants and maps it through
`mapErrorToExceptionCode`, so `ModbusError` (with `otherError` standing for
all foreign errors) captures every distinguishable behaviour. -/
structure RequestHandler where
  HandleCoils : CoilsRequest → Except ModbusError (List Bool)
  HandleDiscreteInputs : DiscreteInputsRequest → Except ModbusError (List Bool)
  HandleHoldingRegisters : HoldingRegistersRequest → Except ModbusError (List Nat)
  HandleInputRegisters : InputRegistersRequest → Except ModbusError (List Nat)

/-- The function-code `switch` of `handleTransport`
(src/unnamed/part_006 lines 394-768): decode and validate the request,
invoke the handler, and build the response PDU, or fail with the error the
tail of the loop turns into an exception response or a link close. -/
def handleRequestBody (h : RequestHandler) (clientAddr clientRole : String)
    (req : pdu) : Except ModbusError pdu :=
  if req.functionCode = 0x01 ∨ req.functionCode = 0x02 then
    -- fcReadCoils / fcReadDiscreteInputs; addr = payload[0:2], quantity = payload[2:4]
    if req.payload.length ≠ 4 then .error .protocolError
    else if bytesToUint16 .BIG_ENDIAN (req.payload.drop 2) > 2000 ∨
            bytesToUint16 .BIG_ENDIAN (req.payload.drop 2) = 0 then
      .error .protocolError
    else if bytesToUint16 .BIG_ENDIAN (req.payload.take 2) +
              bytesToUint16 .BIG_ENDIAN (req.payload.drop 2) - 1 > 0xffff then
      .error .illegalDataAddress
    else
      match (if req.functionCode = 0x01 then
               h.HandleCoils
                 ⟨clientAddr, clientRole, req.unitId,
                  bytesToUint16 .BIG_ENDIAN (req.payload.take 2),
                  bytesToUint16 .BIG_ENDIAN (req.payload.drop 2), false, []⟩
             else
               h.HandleDiscreteInputs
                 ⟨clientAddr, clientRole, req.unitId,
                  bytesToUint16 .BIG_ENDIAN (req.payload.take 2),
                  bytesToUint16 .BIG_ENDIAN (req.payload.drop 2)⟩) with
      | .error e => .error e
      | .ok coils =>
          if coils.length ≠ bytesToUint16 .BIG_ENDIAN (req.payload.drop 2) then
            .error .serverDeviceFailure
          else
            .ok ⟨req.unitId, req.functionCode,
                 ((coils.length / 8) % 256 +
                    (if coils.length % 8 ≠ 0 then 1 else 0)) % 256
                   :: encodeBools coils⟩
  else if req.functionCode = 0x05 then
    -- fcWriteSingleCoil
    if req.payload.length ≠ 4 then .error .protocolError
    else if (req.payload.getD 2 0 ≠ 0xff ∧ req.payload.getD 2 0 ≠ 0x00) ∨
            req.payload.getD 3 0 ≠ 0x00 then .error .protocolError
    else
      match h.HandleCoils ⟨clientAddr, clientRole, req.unitId,
                           bytesToUint16 .BIG_ENDIAN (req.payload.take 2), 1, true,
                           [req.payload.getD 2 0 = 0xff]⟩ with
      | .error e => .error e
      | .ok _ =>
          .ok ⟨req.unitId, req.functionCode,
               uint16ToBytes .BIG_ENDIAN (bytesToUint16 .BIG_ENDIAN (req.payload.take 2)) ++
                 [req.payload.getD 2 0, req.payload.getD 3 0]⟩
  else if req.functionCode = 0x0f then
    -- fcWriteMultipleCoils; expected byte count = ceil(quantity / 8)
    if req.payload.length < 6 then .error .protocolError
    else if bytesToUint16 .BIG_ENDIAN (req.payload.drop 2) > 0x7b0 ∨
            bytesToUint16 .BIG_ENDIAN (req.payload.drop 2) = 0 then
      .error .protocolError
    else if bytesToUint16 .BIG_ENDIAN (req.payload.take 2) +
              bytesToUint16 .BIG_ENDIAN (req.payload.drop 2) - 1 > 0xffff then
      .error .illegalDataAddress
    else if req.payload.getD 4 0 ≠
              (bytesToUint16 .BIG_ENDIAN (req.payload.drop 2) / 8 +
                (if bytesToUint16 .BIG_ENDIAN (req.payload.drop 2) % 8 ≠ 0
                 then 1 else 0)) % 256 then
      .error .protocolError
    else if req.payload.length - 5 ≠
              bytesToUint16 .BIG_ENDIAN (req.payload.drop 2) / 8 +
                (if bytesToUint16 .BIG_ENDIAN (req.payload.drop 2) % 8 ≠ 0
                 then 1 else 0) then
      .error .protocolError
    else
      match h.HandleCoils ⟨clientAddr, clientRole, req.unitId,
                           bytesToUint16 .BIG_ENDIAN (req.payload.take 2),
                           bytesToUint16 .BIG_ENDIAN (req.payload.drop 2), true,
                           decodeBools (bytesToUint16 .BIG_ENDIAN (req.payload.drop 2))
                             (req.payload.drop 5)⟩ with
      | .error e => .error e
      | .ok _ =>
          .ok ⟨req.unitId, req.functionCode,
               uint16ToBytes .BIG_ENDIAN (bytesToUint16 .BIG_ENDIAN (req.payload.take 2)) ++
                 uint16ToBytes .BIG_ENDIAN (bytesToUint16 .BIG_ENDIAN (req.payload.drop 2))⟩
  else if req.functionCode = 0x03 ∨ req.functionCode = 0x04 then
    -- fcReadHoldingRegisters / fcReadInputRegisters
    if req.payload.length ≠ 4 then .error .protocolError
    else if bytesToUint16 .BIG_ENDIAN (req.payload.drop 2) > 0x7d ∨
            bytesToUint16 .BIG_ENDIAN (req.payload.drop 2) = 0 then
      .error .protocolError
    else if bytesToUint16 .BIG_ENDIAN (req.payload.take 2) +
              bytesToUint16 .BIG_ENDIAN (req.payload.drop 2) - 1 > 0xffff then
      .error .illegalDataAddress
    else
      match (if req.functionCode = 0x03 then
               h.HandleHoldingRegisters
                 ⟨clientAddr, clientRole, req.unitId,
                  bytesToUint16 .BIG_ENDIAN (req.payload.take 2),
                  bytesToUint16 .BIG_ENDIAN (req.payload.drop 2), false, []⟩
             else
               h.HandleInputRegisters
                 ⟨clientAddr, clientRole, req.unitId,
                  bytesToUint16 .BIG_ENDIAN (req.payload.take 2),
                  bytesToUint16 .BIG_ENDIAN (req.payload.drop 2)⟩) with
      | .error e => .error e
      | .ok regs =>
          if regs.length ≠ bytesToUint16 .BIG_ENDIAN (req.payload.drop 2) then
            .error .serverDeviceFailure
          else
            .ok ⟨req.unitId, req.functionCode,
                 (regs.length * 2) % 256 :: uint16sToBytes .BIG_ENDIAN regs⟩
  else if req.functionCode = 0x06 then
    -- fcWriteSingleRegister
    if req.payload.length ≠ 4 then .error .protocolError
    else
      match h.HandleHoldingRegisters
              ⟨clientAddr, clientRole, req.unitId,
               bytesToUint16 .BIG_ENDIAN (req.payload.take 2), 1, true,
               [bytesToUint16 .BIG_ENDIAN (req.payload.drop 2)]⟩ with
      | .error e => .error e
      | .ok _ =>
          .ok ⟨req.unitId, req.functionCode,
               uint16ToBytes .BIG_ENDIAN (bytesToUint16 .BIG_ENDIAN (req.payload.take 2)) ++
                 uint16ToBytes .BIG_ENDIAN (bytesToUint16 .BIG_ENDIAN (req.payload.drop 2))⟩
  else if req.functionCode = 0x10 then
    -- fcWriteMultipleRegisters; expected byte count = 2 * quantity
    if req.payload.length < 6 then .error .protocolError
    else if bytesToUint16 .BIG_ENDIAN (req.payload.drop 2) > 0x7b ∨
            bytesToUint16 .BIG_ENDIAN (req.payload.drop 2) = 0 then
      .error .protocolError
    else if bytesToUint16 .BIG_ENDIAN (req.payload.take 2) +
              bytesToUint16 .BIG_ENDIAN (req.payload.drop 2) - 1 > 0xffff then
      .error .illegalDataAddress
    else if req.payload.getD 4 0 ≠
              (bytesToUint16 .BIG_ENDIAN (req.payload.drop 2) * 2) % 256 then
      .error .protocolError
    else if req.payload.length - 5 ≠
              bytesToUint16 .BIG_ENDIAN (req.payload.drop 2) * 2 then
      .error .protocolError
    else
      match h.HandleHoldingRegisters
              ⟨clientAddr, clientRole, req.unitId,
               bytesToUint16 .BIG_ENDIAN (req.payload.take 2),
               bytesToUint16 .BIG_ENDIAN (req.payload.drop 2), true,
               bytesToUint16s .BIG_ENDIAN (req.payload.drop 5)⟩ with
      | .error e => .error e
      | .ok _ =>
          .ok ⟨req.unitId, req.functionCode,
               uint16ToBytes .BIG_ENDIAN (bytesToUint16 .BIG_ENDIAN (req.payload.take 2)) ++
                 uint16ToBytes .BIG_ENDIAN (bytesToUint16 .BIG_ENDIAN (req.payload.drop 2))⟩
  else
    -- default: set the error bit and reply exIllegalFunction
    .ok ⟨req.unitId, Nat.lor 0x80 req.functionCode, [0x01]⟩

/-- Outcome of one loop iteration as observed on the transport. -/
inductive SessionOutcome where
  | closeLink
  | respond (res : pdu)
deriving DecidableEq, Repr

/-- Tail of the `handleTransport` loop (src/unnamed/part_006 lines 779-801):
a `ErrProtocolError` closes the transport and ends the session; any other
error becomes an exception response `fc | 0x80` with the mapped exception
code; otherwise the built response is written. -/
def handleTransportStep (h : RequestHandler) (clientAddr clientRole : String)
    (req : pdu) : SessionOutcome :=
  match handleRequestBody h clientAddr clientRole req with
  | .error e =>
      if e = .protocolError then .closeLink
      else .respond ⟨req.unitId, Nat.lor 0x80 req.functionCode,
                     [mapErrorToExceptionCode e]⟩
  | .ok res => .respond res

/-- A simple handler used to instantiate the theorems on concrete inputs:
reads return all-zero values of the requested quantity, writes succeed. -/
def zeroHandler : RequestHandler where
  HandleCoils := fun r => .ok (List.replicate r.quantity false)
  HandleDiscreteInputs := fun r => .ok (List.replicate r.quantity false)
  HandleHoldingRegisters := fun r => .ok (List.replicate r.quantity 0)
  HandleInputRegisters := fun r => .ok (List.replicate r.quantity 0)

/-! ## C4: request-length validation -/

/-- C4 counterexample: an FC 0x01 read-coils request whose payload is 3
bytes (not 4) makes the dispatcher close the link: the session ends and no
response — in particular no exception-0x03 response — is written. -/
theorem server_bad_length_counterexample :
    handleTransportStep zeroHandler "" "" ⟨1, 0x01, [0, 0, 0]⟩ = .closeLink := by
  decide

/-- C4 (amended): a request whose payload length differs from the length
its function code requires (≠ 4 for FC 1/2/3/4/5/6; < 6 for FC 15/16)
produces `ErrProtocolError`, upon which the server closes the transport and
terminates the session without sending any response. -/
theorem server_bad_length_closes (h : RequestHandler) (ca cr : String) (req : pdu)
    (hlen : (req.functionCode ∈ ([1, 2, 3, 4, 5, 6] : List Nat) ∧
              req.payload.length ≠ 4) ∨
            (req.functionCode ∈ ([15, 16] : List Nat) ∧ req.payload.length < 6)) :
    handleTransportStep h ca cr req = .closeLink := by
  obtain ⟨u, fc, payload⟩ := req
  simp only [List.mem_cons, List.not_mem_nil, or_false] at hlen
  rcases hlen with ⟨hfc, hl⟩ | ⟨hfc, hl⟩
  · rcases hfc with rfl | rfl | rfl | rfl | rfl | rfl <;>
      simp [handleTransportStep, handleRequestBody, hl]
  · rcases hfc with rfl | rfl <;>
      simp [handleTransportStep, handleRequestBody, hl]

/-- Witness for C4 (amended): an FC 0x10 write request with a 5-byte
payload closes the link. -/
theorem server_bad_length_closes_witness :
    handleTransportStep zeroHandler "" "" ⟨1, 0x10, [0, 0, 0, 1, 2]⟩ = .closeLink :=
  server_bad_length_closes zeroHandler "" "" ⟨1, 0x10, [0, 0, 0, 1, 2]⟩
    (Or.inr ⟨by decide, by decide⟩)

/-! ## C9: response PDU invariant -/

/-- The nine defined Modbus exception codes. -/
def definedExceptionCodes : List Nat := [0x01, 0x02, 0x03, 0x04, 0x05, 0x06, 0x08, 0x0a, 0x0b]

/-- The PDU invariant of the data model: a success response carries the
request's function code with the high bit clear; an exception response
carries the request's function code OR 0x80 and a one-byte payload holding
a defined exception code; the unit id always echoes the request's. -/
def responseInvariant (req res : pdu) : Prop :=
  res.unitId = req.unitId ∧
  ((res.functionCode = req.functionCode ∧ res.functionCode < 0x80) ∨
   (res.functionCode = Nat.lor 0x80 req.functionCode ∧
    ∃ c, res.payload = [c] ∧ c ∈ definedExceptionCodes))

theorem mapErrorToExceptionCode_mem (e : ModbusError) :
    mapErrorToExceptionCode e ∈ definedExceptionCodes := by
  cases e <;> decide

theorem handleRequestBody_ok (h : RequestHandler) (ca cr : String)
    (req r : pdu) (hb : handleRequestBody h ca cr req = .ok r) :
    responseInvariant req r := by
  unfold handleRequestBody at hb
  by_cases h1 : req.functionCode = 0x01 ∨ req.functionCode = 0x02
  · rw [if_pos h1] at hb
    repeat' split at hb
    all_goals
      first
      | exact Except.noConfusion hb
      | (injection hb with hb2; subst hb2;
         exact ⟨rfl, Or.inl ⟨rfl, show req.functionCode < 0x80 by omega⟩⟩)
  · rw [if_neg h1] at hb
    by_cases h2 : req.functionCode = 0x05
    · rw [if_pos h2] at hb
      repeat' split at hb
      all_goals
        first
        | exact Except.noConfusion hb
        | (injection hb with hb2; subst hb2;
           exact ⟨rfl, Or.inl ⟨rfl, show req.functionCode < 0x80 by omega⟩⟩)
    · rw [if_neg h2] at hb
      by_cases h3 : req.functionCode = 0x0f
      · rw [if_pos h3] at hb
        repeat' split at hb
        all_goals
          first
          | exact Except.noConfusion hb
          | (injection hb with hb2; subst hb2;
             exact ⟨rfl, Or.inl ⟨rfl, show req.functionCode < 0x80 by omega⟩⟩)
      · rw [if_neg h3] at hb
        by_cases h4 : req.functionCode = 0x03 ∨ req.functionCode = 0x04
        · rw [if_pos h4] at hb
          repeat' split at hb
          all_goals
            first
            | exact Except.noConfusion hb
            | (injection hb with hb2; subst hb2;
               exact ⟨rfl, Or.inl ⟨rfl, show req.functionCode < 0x80 by omega⟩⟩)
        · rw [if_neg h4] at hb
          by_cases h5 : req.functionCode = 0x06
          · rw [if_pos h5] at hb
            repeat' split at hb
            all_goals
              first
              | exact Except.noConfusion hb
              | (injection hb with hb2; subst hb2;
                 exact ⟨rfl, Or.inl ⟨rfl, show req.functionCode < 0x80 by omega⟩⟩)
          · rw [if_neg h5] at hb
            by_cases h6 : req.functionCode = 0x10
            · rw [if_pos h6] at hb
              repeat' split at hb
              all_goals
                first
                | exact Except.noConfusion hb
                | (injection hb with hb2; subst hb2;
                   exact ⟨rfl, Or.inl ⟨rfl, show req.functionCode < 0x80 by omega⟩⟩)
            · rw [if_neg h6] at hb
              injection hb with hb2
              subst hb2
              exact ⟨rfl, Or.inr ⟨rfl, 0x01, rfl, by decide⟩⟩

/-- C9: every response PDU the dispatcher writes to the transport satisfies
the PDU invariant — success responses echo the request's function code with
the high bit clear, exception responses carry `fc | 0x80` with exactly one
payload byte from the defined exception-code set, and the unit id always
equals the request's. -/
theorem server_response_invariant (h : RequestHandler) (ca cr : String)
    (req res : pdu) (hres : handleTransportStep h ca cr req = .respond res) :
    responseInvariant req res := by
  unfold handleTransportStep at hres
  cases hb : handleRequestBody h ca cr req with
  | error e =>
      rw [hb] at hres
      by_cases hp : e = .protocolError
      · rw [hp] at hres
        simp at hres
      · simp only [if_neg hp] at hres
        injection hres with hres2
        rw [← hres2]
        exact ⟨rfl, Or.inr ⟨rfl, mapErrorToExceptionCode e, rfl,
               mapErrorToExceptionCode_mem e⟩⟩
  | ok r =>
      rw [hb] at hres
      simp only at hres
      injection hres with hres2
      rw [← hres2]
      exact handleRequestBody_ok h ca cr req r hb

/-- Witness for C9: an unknown function code (0x2a) yields the
illegal-function exception response, which satisfies the invariant. -/
theorem server_response_invariant_witness :
    responseInvariant ⟨1, 0x2a, []⟩ ⟨1, 0xaa, [0x01]⟩ :=
  server_response_invariant zeroHandler "" "" ⟨1, 0x2a, []⟩ ⟨1, 0xaa, [0x01]⟩
    (by decide)

/-! ## C7: TLS role extraction (src/unnamed/part_006 lines 861-901) -/

/-- An X.509 extension as `extractRole` sees it (`pkix.Extension`): the OID
as its integer components and the raw DER value bytes. -/
structure pkixExtension where
  oid : List Nat
  value : List Nat
deriving DecidableEq, Repr

/-- The Modbus Role OID `1.3.6.1.4.1.50316.802.1` (R-21). -/
def modbusRoleOID : List Nat := [1, 3, 6, 1, 4, 1, 50316, 802, 1]

/-- `ext.Id.Equal(modbusRoleOID)`. -/
def isRoleOID (x : pkixExtension) : Bool := x.oid == modbusRoleOID

/-- Long-form accumulation loop of the length parse in Go's
`encoding/asn1.parseTagAndLength`: read `n` bytes big-endian, failing on
truncation, overflow (accumulator ≥ 2^23 before a shift), a leading zero
byte, and (after the loop) a value below 0x80, which should have used the
short form. -/
def parseAsn1LengthLong : Nat → Nat → List Nat → Option Nat
  | 0, acc, _ => if acc < 0x80 then none else some acc
  | _ + 1, _, [] => none
  | n + 1, acc, b :: rest =>
      if acc ≥ 8388608 then none
      else
        if acc * 256 + b % 256 = 0 then none
        else parseAsn1LengthLong n (acc * 256 + b % 256) rest

/-- DER length parse of Go's `encoding/asn1.parseTagAndLength` (the part
after the tag byte): short form below 0x80; `0x80` (indefinite length) is
rejected; otherwise the bottom seven bits give the number of long-form
bytes.  Returns the decoded length and the number of length bytes
consumed.  Modelled from the Go standard library, which `extractRole`
reaches through `asn1.Unmarshal`. -/
def parseAsn1Length (l : List Nat) : Option (Nat × Nat) :=
  match l with
  | [] => none
  | b :: rest =>
      if b % 256 < 0x80 then some (b % 256, 1)
      else if b % 256 = 0x80 then none
      else (parseAsn1LengthLong (b % 256 - 0x80) 0 rest).map
             (fun len => (len, 1 + (b % 256 - 0x80)))

/-- A UTF-8 continuation byte (0x80..0xBF). -/
def utf8ContByte (b : Nat) : Bool := 0x80 ≤ b && b ≤ 0xbf

/-- UTF-8 validity of a byte sequence, as checked by Go's `utf8.Valid`
(RFC 3629: no overlong forms, no surrogates, nothing above U+10FFFF). -/
def utf8Valid : List Nat → Bool
  | [] => true
  | b :: rest =>
      if b < 0x80 then utf8Valid rest
      else if 0xc2 ≤ b && b ≤ 0xdf then
        match rest with
        | c1 :: r => utf8ContByte c1 && utf8Valid r
        | _ => false
      else if b = 0xe0 then
        match rest with
        | c1 :: c2 :: r =>
            (0xa0 ≤ c1 && c1 ≤ 0xbf) && utf8ContByte c2 && utf8Valid r
        | _ => false
      else if (0xe1 ≤ b && b ≤ 0xec) || (0xee ≤ b && b ≤ 0xef) then
        match rest with
        | c1 :: c2 :: r => utf8ContByte c1 && utf8ContByte c2 && utf8Valid r
        | _ => false
      else if b = 0xed then
        match rest with
        | c1 :: c2 :: r =>
            (0x80 ≤ c1 && c1 ≤ 0x9f) && utf8ContByte c2 && utf8Valid r
        | _ => false
      else if b = 0xf0 then
        match rest with
        | c1 :: c2 :: c3 :: r =>
            (0x90 ≤ c1 && c1 ≤ 0xbf) && utf8ContByte c2 && utf8ContByte c3 &&
              utf8Valid r
        | _ => false
      else if 0xf1 ≤ b && b ≤ 0xf3 then
        match rest with
        | c1 :: c2 :: c3 :: r =>
            utf8ContByte c1 && utf8ContByte c2 && utf8ContByte c3 && utf8Valid r
        | _ => false
      else if b = 0xf4 then
        match rest with
        | c1 :: c2 :: c3 :: r =>
            (0x80 ≤ c1 && c1 ≤ 0x8f) && utf8ContByte c2 && utf8ContByte c3 &&
              utf8Valid r
        | _ => false
      else false

/-- `asn1.Unmarshal(ext.Value, &role)` for a UTF8String TLV: parse the tag
byte (which `extractRole` has already required to be 0x0c) and the length,
require the content bytes to be present and valid UTF-8, and return the
content (trailing bytes after the TLV are returned as rest and ignored by
`extractRole`).  Modelled from the Go standard library.  The decoded Go
string is represented by its byte list. -/
def asn1UnmarshalUTF8String (v : List Nat) : Option (List Nat) :=
  match v with
  | [] => none
  | t :: rest =>
      if t ≠ 0x0c then none
      else
        match parseAsn1Length rest with
        | none => none
        | some (len, consumed) =>
            if (rest.drop consumed).length < len then none
            else if utf8Valid ((rest.drop consumed).take len) then
              some ((rest.drop consumed).take len)
            else none

/-- The extension walk of `extractRole`: carries the `found` flag and the
current role; a second role extension, a short value, a wrong tag byte or
an `Unmarshal` failure sets `badCert` and breaks out of the loop.  Returns
(badCert, role). -/
def extractRoleLoop : List pkixExtension → Bool → List Nat → Bool × List Nat
  | [], _, role => (false, role)
  | ext :: rest, found, role =>
      if isRoleOID ext then
        if found then (true, role)
        else if ext.value.length < 2 ∨ ext.value.headD 0 ≠ 0x0c then (true, role)
        else
          match asn1UnmarshalUTF8String ext.value with
          | none => (true, role)
          | some s => extractRoleLoop rest true s
      else extractRoleLoop rest found role

/-- `extractRole`: walk the leaf certificate's extensions; blank the role
when the walk flagged the certificate as bad. -/
def extractRole (extensions : List pkixExtension) : List Nat :=
  match extractRoleLoop extensions false [] with
  | (true, _) => []
  | (false, role) => role

/-- A successful `Unmarshal` implies the pre-checks of `extractRole` pass:
the value holds at least the tag and one length byte, and the tag is 0x0c. -/
theorem asn1UnmarshalUTF8String_guard (v s : List Nat)
    (h : asn1UnmarshalUTF8String v = some s) :
    2 ≤ v.length ∧ v.headD 0 = 0x0c := by
  match v with
  | [] => simp [asn1UnmarshalUTF8String] at h
  | [t] =>
      simp only [asn1UnmarshalUTF8String, parseAsn1Length] at h
      split at h
      · exact absurd h (by simp)
      · exact absurd h (by simp)
  | t :: b :: rest =>
      simp only [asn1UnmarshalUTF8String] at h
      split at h
      · exact absurd h (by simp)
      · next ht =>
          refine ⟨by simp only [List.length_cons]; omega, ?_⟩
          simp only [ne_eq, not_not] at ht
          simp [ht]

/-- Extensions without the role OID are skipped, leaving the walk state
unchanged. -/
theorem extractRoleLoop_no_match (c : List pkixExtension) (found : Bool)
    (role : List Nat) (hc : c.filter isRoleOID = []) :
    extractRoleLoop c found role = (false, role) := by
  induction c with
  | nil => rfl
  | cons x rest ih =>
      by_cases hx : isRoleOID x
      · rw [List.filter_cons_of_pos hx] at hc
        exact absurd hc (by simp)
      · rw [List.filter_cons_of_neg (by simpa using hx)] at hc
        simp only [extractRoleLoop, if_neg hx]
        exact ih hc

/-- Once a role extension has been consumed, any further role extension
flags the certificate as bad. -/
theorem extractRoleLoop_found_dup (c : List pkixExtension) (role : List Nat)
    (hc : c.filter isRoleOID ≠ []) :
    extractRoleLoop c true role = (true, role) := by
  induction c with
  | nil => exact absurd rfl hc
  | cons x rest ih =>
      by_cases hx : isRoleOID x
      · simp [extractRoleLoop, hx]
      · rw [List.filter_cons_of_neg (by simpa using hx)] at hc
        simp only [extractRoleLoop, if_neg hx]
        exact ih hc

/-- Walk of a certificate carrying exactly one role extension. -/
theorem extractRoleLoop_single (c : List pkixExtension) (e : pkixExtension)
    (role : List Nat) (hc : c.filter isRoleOID = [e]) :
    extractRoleLoop c false role =
      (if e.value.length < 2 ∨ e.value.headD 0 ≠ 0x0c then (true, role)
       else match asn1UnmarshalUTF8String e.value with
            | none => (true, role)
            | some s => (false, s)) := by
  induction c with
  | nil => exact absurd hc (by simp)
  | cons x rest ih =>
      by_cases hx : isRoleOID x
      · rw [List.filter_cons_of_pos hx] at hc
        rw [List.cons.injEq] at hc
        obtain ⟨rfl, hrest⟩ := hc
        simp only [extractRoleLoop, if_pos hx, Bool.false_eq_true, if_false]
        split
        · rfl
        · cases hu : asn1UnmarshalUTF8String x.value with
          | none => rfl
          | some s => exact extractRoleLoop_no_match rest true s hrest
      · rw [List.filter_cons_of_neg (by simpa using hx)] at hc
        simp only [extractRoleLoop, if_neg hx]
        exact ih hc

/-- Walk of a certificate carrying two or more role extensions: the
certificate is flagged bad. -/
theorem extractRoleLoop_multi (c : List pkixExtension) (role : List Nat)
    (hc : 2 ≤ (c.filter isRoleOID).length) :
    (extractRoleLoop c false role).1 = true := by
  induction c generalizing role with
  | nil => simp at hc
  | cons x rest ih =>
      by_cases hx : isRoleOID x
      · rw [List.filter_cons_of_pos hx] at hc
        simp only [List.length_cons] at hc
        have hrest : rest.filter isRoleOID ≠ [] := by
          intro hnil
          rw [hnil] at hc
          simp at hc
        simp only [extractRoleLoop, if_pos hx, Bool.false_eq_true, if_false]
        split
        · rfl
        · cases hu : asn1UnmarshalUTF8String x.value with
          | none => rfl
          | some s =>
              show (extractRoleLoop rest true s).1 = true
              rw [extractRoleLoop_found_dup rest s hrest]
      · rw [List.filter_cons_of_neg (by simpa using hx)] at hc
        simp only [extractRoleLoop, if_neg hx]
        exact ih role hc

/-- C7: `extractRole` returns the decoded string when the certificate
carries exactly one extension with the Modbus Role OID whose value is a
well-formed ASN.1 UTF8String (tag byte 0x0c); it returns the empty string
when there is no such extension, when there is more than one, or when the
single extension's value is shorter than 2 bytes, has a first byte other
than 0x0c, or fails to parse. -/
theorem extractRole_spec (c1 c2 c3 c4 : List pkixExtension)
    (e1 e4 : pkixExtension) (s : List Nat)
    (h1 : c1.filter isRoleOID = [e1])
    (h1b : asn1UnmarshalUTF8String e1.value = some s)
    (h2 : c2.filter isRoleOID = [])
    (h3 : 2 ≤ (c3.filter isRoleOID).length)
    (h4 : c4.filter isRoleOID = [e4])
    (h4b : e4.value.length < 2 ∨ e4.value.headD 0 ≠ 0x0c ∨
           asn1UnmarshalUTF8String e4.value = none) :
    extractRole c1 = s ∧ extractRole c2 = [] ∧
    extractRole c3 = [] ∧ extractRole c4 = [] := by
  refine ⟨?_, ?_, ?_, ?_⟩
  · obtain ⟨hlen, hhead⟩ := asn1UnmarshalUTF8String_guard e1.value s h1b
    unfold extractRole
    rw [extractRoleLoop_single c1 e1 [] h1,
        if_neg (by push_neg; exact ⟨by omega, by rw [hhead]⟩), h1b]
  · unfold extractRole
    rw [extractRoleLoop_no_match c2 false [] h2]
  · unfold extractRole
    rcases hloop : extractRoleLoop c3 false [] with ⟨b, r⟩
    have := extractRoleLoop_multi c3 [] h3
    rw [hloop] at this
    simp only at this
    rw [this]
  · unfold extractRole
    rw [extractRoleLoop_single c4 e4 [] h4]
    rcases h4b with hshort | htag | hfail
    · rw [if_pos (Or.inl hshort)]
    · rw [if_pos (Or.inr htag)]
    · by_cases hguard : e4.value.length < 2 ∨ e4.value.headD 0 ≠ 0x0c
      · rw [if_pos hguard]
      · rw [if_neg hguard, hfail]

/-- Witness for C7: a certificate with the single role extension
`0x0c 0x09 "operator2"` yields the role "operator2" (as bytes); an empty
extension list, a duplicated role extension, and a truncated TLV each
yield the empty role. -/
theorem extractRole_spec_witness :
    extractRole [⟨[1, 3, 6, 1, 4, 1, 50316, 802, 1],
        [0x0c, 0x09, 0x6f, 0x70, 0x65, 0x72, 0x61, 0x74, 0x6f, 0x72, 0x32]⟩] =
      [0x6f, 0x70, 0x65, 0x72, 0x61, 0x74, 0x6f, 0x72, 0x32] ∧
    extractRole [] = [] ∧
    extractRole [⟨[1, 3, 6, 1, 4, 1, 50316, 802, 1], [0x0c, 0x01, 0x61]⟩,
                 ⟨[1, 3, 6, 1, 4, 1, 50316, 802, 1], [0x0c, 0x01, 0x62]⟩] = [] ∧
    extractRole [⟨[1, 3, 6, 1, 4, 1, 50316, 802, 1], [0x0c, 0x05, 0x61]⟩] = [] :=
  extractRole_spec
    [⟨[1, 3, 6, 1, 4, 1, 50316, 802, 1],
      [0x0c, 0x09, 0x6f, 0x70, 0x65, 0x72, 0x61, 0x74, 0x6f, 0x72, 0x32]⟩]
    []
    [⟨[1, 3, 6, 1, 4, 1, 50316, 802, 1], [0x0c, 0x01, 0x61]⟩,
     ⟨[1, 3, 6, 1, 4, 1, 50316, 802, 1], [0x0c, 0x01, 0x62]⟩]
    [⟨[1, 3, 6, 1, 4, 1, 50316, 802, 1], [0x0c, 0x05, 0x61]⟩]
    ⟨[1, 3, 6, 1, 4, 1, 50316, 802, 1],
     [0x0c, 0x09, 0x6f, 0x70, 0x65, 0x72, 0x61, 0x74, 0x6f, 0x72, 0x32]⟩
    ⟨[1, 3, 6, 1, 4, 1, 50316, 802, 1], [0x0c, 0x05, 0x61]⟩
    [0x6f, 0x70, 0x65, 0x72, 0x61, 0x74, 0x6f, 0x72, 0x32]
    (by decide) (by decide) (by decide) (by decide) (by decide) (by decide)

end Modbus
